import Mathlib

/-!
Verification of the bravado-bitjws client core (src/bravado_bitjws/client.py).

The development shallowly embeds the request-construction pipeline
(`BitJWSCallableOperation.construct_request` / `construct_params` / `__call__`),
the response triage (`bitjws_response_callback`), and the client construction
entry points (`BitJWSSwaggerClient.from_spec` / `from_url`).

External collaborators that the repository imports from the bravado /
bravado_core / bitjws libraries (`marshal_param`, `unmarshal_response`,
`raise_on_unexpected`, `raise_on_expected`, `urlsplit`, the key primitives)
are modelled from their contracts as stated in the specification; each such
definition carries a doc comment saying so.  Everything else is translated
directly from the source.
-/

namespace BravadoBitjws

/-- Wire values, request-parameter values and unmarshalled results are kept
abstract; strings are enough structure for the properties proved here. -/
abbrev Val := String

/-- One declared parameter of an operation: name, required flag, optional
declared default, and its transport location (query/path/body/header).
Mirrors the parameter metadata `construct_params` consults
(`param.required`, `param.has_default()`, marshalling location). -/
structure Param where
  name : String
  required : Bool
  defaultValue : Option Val
  location : String
deriving DecidableEq, Repr

/-- Translation of `bravado_core.param.Param.has_default`. -/
def Param.has_default (p : Param) : Bool := p.defaultValue.isSome

/-- The per-call `_request_options` mapping popped from the kwargs by
`construct_request` (recognized options: `headers`, `connect_timeout`,
`timeout`).  Since the reserved key is removed before parameter processing,
it is modelled as a separate argument rather than a kwargs entry. -/
structure RequestOptions where
  headers : List (String × String) := []
  connect_timeout : Option Val := none
  timeout : Option Val := none
deriving DecidableEq, Repr

/-- The request dict built by `construct_request`: method, resolved url,
headers, marshalled parameters (location, name, value) and the optional
timeout options copied from the request options. -/
structure RequestDescription where
  method : String
  url : String
  headers : List (String × String)
  params : List (String × String × Val)
  connect_timeout : Option Val
  timeout : Option Val
deriving DecidableEq, Repr

/-- Modelled from the spec: the external parameter marshaller
`marshal_param(paramDescriptor, value, requestDescription)` "mutates
requestDescription in place, placing the value at the correct transport
location"; when invoked with no value it marshals the parameter's declared
default.  The embedding returns the updated request. -/
def marshal_param (param : Param) (value : Option Val)
    (request : RequestDescription) : RequestDescription :=
  let v : Val :=
    match value, param.defaultValue with
    | some v, _ => v
    | none, some d => d
    | none, none => ""
  { request with params := request.params ++ [(param.location, param.name, v)] }

/-- The `SwaggerMappingError`s raised by `construct_params`, with the message
text of the two `raise` sites. -/
inductive SwaggerMappingError where
  | unknownParam (operation_id : String) (param_name : String)
  | requiredMissing (param_name : String)
deriving DecidableEq, Repr

/-- The message strings of the two `SwaggerMappingError` raise sites in
`construct_params`. -/
def SwaggerMappingError.message : SwaggerMappingError → String
  | .unknownParam opId p => opId ++ " does not have parameter " ++ p
  | .requiredMissing p => p ++ " is a required parameter"

/-- Metadata of `operation.swagger_spec` needed by the adapter:
the base api url. -/
structure SwaggerSpecInfo where
  api_url : String
deriving DecidableEq, Repr

/-- A declared response: status code together with the schema, modelled as
the unmarshalling function the schema induces on response bodies. -/
structure ResponseSpec where
  status : Nat
  decode : Val → Val

/-- Static metadata of one `bravado_core.operation.Operation` as consumed by
`BitJWSCallableOperation` and `bitjws_response_callback`. -/
structure Operation where
  operation_id : String
  http_method : String
  path_name : String
  swagger_spec : SwaggerSpecInfo
  params : List Param
  responses : List ResponseSpec

/-- Translation of Python `s.upper()`: uppercase every character. -/
def strUpper (s : String) : String := String.mk (s.data.map Char.toUpper)

/-- Translation of Python `s.rstrip('/')`: drop every trailing slash. -/
def rstripSlashes (s : String) : String :=
  String.mk ((s.data.reverse.dropWhile (fun c => c == '/')).reverse)

/-- Translation of `current_params.pop(param_name, None)` on the parameter
mapping: return the first parameter with the given name (or `none`) together
with the mapping with that entry removed. -/
def popParam : List Param → String → Option Param × List Param
  | [], _ => (none, [])
  | p :: ps, n =>
    if p.name == n then (some p, ps)
    else
      let r := popParam ps n
      (r.1, p :: r.2)

/-- Whether some declared parameter in the list has the given name. -/
def declaredIn (ps : List Param) (k : String) : Bool :=
  ps.any (fun p => p.name == k)

/-- Translation of the first loop of `construct_params`: walk the supplied
kwargs in order, pop each name from the pending parameter mapping, fail with
the unknown-parameter `SwaggerMappingError` when the pop misses, otherwise
marshal the supplied value; return the remaining parameters and the updated
request. -/
def consumeKwargs (opId : String) :
    List Param → List (String × Val) → RequestDescription →
    Except SwaggerMappingError (List Param × RequestDescription)
  | current, [], request => .ok (current, request)
  | current, (param_name, param_value) :: rest, request =>
    match popParam current param_name with
    | (none, _) => .error (.unknownParam opId param_name)
    | (some p, current2) =>
      consumeKwargs opId current2 rest (marshal_param p (some param_value) request)

/-- Translation of the second loop of `construct_params`: for each parameter
not consumed by the kwargs, fail if it is required, and marshal its default
when it is not required but has one. -/
def checkRemaining :
    List Param → RequestDescription →
    Except SwaggerMappingError RequestDescription
  | [], request => .ok request
  | p :: ps, request =>
    if p.required then .error (.requiredMissing p.name)
    else if p.has_default then checkRemaining ps (marshal_param p none request)
    else checkRemaining ps request

/-- Translation of `BitJWSCallableOperation.construct_params`. -/
def construct_params (op : Operation) (request : RequestDescription)
    (op_kwargs : List (String × Val)) :
    Except SwaggerMappingError RequestDescription :=
  match consumeKwargs op.operation_id op.params op_kwargs request with
  | .error e => .error e
  | .ok (remaining, request2) => checkRemaining remaining request2

/-- Translation of `BitJWSCallableOperation.construct_request`: build the
request dict with the uppercased method, the url obtained by joining the
spec's api url (trailing slashes stripped) with the operation's path, the
headers and timeout options from the per-call request options, then validate
and marshal the parameters. -/
def construct_request (op : Operation) (op_kwargs : List (String × Val))
    (request_options : RequestOptions) :
    Except SwaggerMappingError RequestDescription :=
  let request : RequestDescription :=
    { method := strUpper op.http_method
      url := rstripSlashes op.swagger_spec.api_url ++ op.path_name
      headers := request_options.headers
      params := []
      connect_timeout := request_options.connect_timeout
      timeout := request_options.timeout }
  construct_params op request op_kwargs

/-- Translation of `BitJWSCallableOperation.__call__`: construct the request
and hand it to `swagger_spec.http_client.request` (abstracted as the
`http_request` argument returning a future of type `F`).  The second
component logs every request actually handed to the transport, so the
no-network-before-failure property is expressible: when `construct_request`
raises, the exception propagates and the transport is never invoked. -/
def opCall {F : Type} (op : Operation) (op_kwargs : List (String × Val))
    (request_options : RequestOptions)
    (http_request : RequestDescription → F) :
    Except SwaggerMappingError F × List RequestDescription :=
  match construct_request op op_kwargs request_options with
  | .error e => (.error e, [])
  | .ok req => (.ok (http_request req), [req])

/-- The raw completed response (`bravado_core.response.IncomingResponse`):
status code, reason phrase and body text. -/
structure IncomingResponse where
  status_code : Nat
  reason : String
  text : Val
deriving DecidableEq, Repr

/-- Lookup of the response spec declared for a status code in the
operation's response map. -/
def findResponseSpec (op : Operation) (status : Nat) : Option ResponseSpec :=
  op.responses.find? (fun r => r.status == status)

/-- Modelled from the spec: the diagnostic carried by the external
unmarshaller's `MatchingResponseNotFound` condition ("no matching response
schema" for the status code). -/
def matchingResponseNotFoundMsg (status : Nat) : String :=
  "no matching response schema found for status code " ++ toString status

/-- The failure of the external unmarshaller when the status code has no
declared schema, carrying its `str(e)` message. -/
inductive UnmarshalError where
  | matchingResponseNotFound (msg : String)
deriving DecidableEq, Repr

/-- Modelled from the spec: the external response unmarshaller
`unmarshal(incomingResponse, operationDescriptor) -> typed value`, which
"fails with a 'no matching response' condition when the status code has no
declared schema" and otherwise unmarshals the body against the schema
declared for the status code. -/
def unmarshal_response (incoming_response : IncomingResponse)
    (op : Operation) : Except UnmarshalError Val :=
  match findResponseSpec op incoming_response.status_code with
  | some rs => .ok (rs.decode incoming_response.text)
  | none => .error (.matchingResponseNotFound
      (matchingResponseNotFoundMsg incoming_response.status_code))

/-- The user-visible HTTP-level error (`bravado.exception.HTTPError`):
built from a response (status + reason) and optionally a message and a
structured `swagger_result` payload. -/
structure HTTPError where
  status : Nat
  reason : String
  message : Option String
  swagger_result : Option Val
deriving DecidableEq, Repr

/-- Modelled from the spec: `raise_on_unexpected` from the external bravado
client — "if status indicates a server-side failure (5xx-equivalent class),
fail immediately with a TransportError carrying minimal detail (status +
reason only)". -/
def raise_on_unexpected (http_response : IncomingResponse) :
    Except HTTPError Unit :=
  if 500 ≤ http_response.status_code ∧ http_response.status_code ≤ 599 then
    .error { status := http_response.status_code
             reason := http_response.reason
             message := none
             swagger_result := none }
  else .ok ()

/-- Modelled from the spec: `raise_on_expected` from the external bravado
client — "if the matched/unmarshalled status is outside the success range,
fail with a TransportError carrying the unmarshalled value as payload". -/
def raise_on_expected (http_response : IncomingResponse)
    (swagger_return_value : Val) : Except HTTPError Unit :=
  if 200 ≤ http_response.status_code ∧ http_response.status_code < 300 then
    .ok ()
  else
    .error { status := http_response.status_code
             reason := http_response.reason
             message := none
             swagger_result := some swagger_return_value }

/-- Translation of `bitjws_response_callback`: first the 5xx short-circuit
(`raise_on_unexpected`), then unmarshalling — a `MatchingResponseNotFound`
is re-raised as an `HTTPError` with `message=str(e)` — then the
outside-success-range check (`raise_on_expected`), and finally the
unmarshalled value is returned. -/
def bitjws_response_callback (incoming_response : IncomingResponse)
    (operation : Operation) : Except HTTPError Val :=
  match raise_on_unexpected incoming_response with
  | .error e => .error e
  | .ok _ =>
    match unmarshal_response incoming_response operation with
    | .error (.matchingResponseNotFound m) =>
      .error { status := incoming_response.status_code
               reason := incoming_response.reason
               message := some m
               swagger_result := none }
    | .ok swagger_return_value =>
      match raise_on_expected incoming_response swagger_return_value with
      | .error e => .error e
      | .ok _ => .ok swagger_return_value

/-- Modelled from the spec: the signing identity's private key, kept
abstract up to its portable wallet-import-format encoding. -/
structure PrivateKey where
  wif : String
deriving DecidableEq, Repr

/-- Modelled from the spec: `bitjws.privkey_to_wif` — serialize a key to
its portable textual encoding. -/
def privkey_to_wif (k : PrivateKey) : String := k.wif

/-- Modelled from the spec: `bitjws.PrivateKey(bitjws.wif_to_privkey(s))` —
decode a portable encoded identity string into a key object. -/
def wif_to_privkey (s : String) : PrivateKey := { wif := s }

/-- The `privkey` argument of `from_url` / `from_spec`: absent, a WIF
string, or an already-constructed key object. -/
inductive PrivKeyArg where
  | absent
  | wif (s : String)
  | key (k : PrivateKey)
deriving DecidableEq, Repr

/-- The shared privkey-resolution prologue of `from_url` and `from_spec`:
generate a fresh key when absent (the fresh key is supplied as an explicit
argument, standing for the entropy source), decode a WIF string, or use the
key object directly. -/
def resolvePrivkey (freshKey : PrivateKey) : PrivKeyArg → PrivateKey
  | .absent => freshKey
  | .wif s => wif_to_privkey s
  | .key k => k

/-- Modelled from the spec: `urlparse.urlsplit(url).hostname` — the host
part of a url, after the scheme separator and before the next slash or the
port colon; `none` when the url has no network location. -/
def urlsplitHostname (url : String) : Option String :=
  match url.splitOn "://" with
  | _ :: rest :: _ =>
    match (rest.takeWhile (fun c => c ≠ '/')).splitOn ":" with
    | h :: _ => if h = "" then none else some h
    | [] => none
  | _ => none

/-- The bitjws-signing transport (`BitJWSRequestsClient`): its observable
construction-time state is the host → WIF key registry populated by
`set_bitjws_key`. -/
structure BitJWSRequestsClient where
  keys : List (Option String × String)
deriving DecidableEq, Repr

/-- Translation of `BitJWSRequestsClient.set_bitjws_key(host, wif)`. -/
def set_bitjws_key (c : BitJWSRequestsClient) (host : Option String)
    (wif : String) : BitJWSRequestsClient :=
  { keys := c.keys ++ [(host, wif)] }

/-- The `http_client` used by the constructed client: either the
caller-supplied transport (kept opaque) or a `BitJWSRequestsClient` built
by `from_url` / `from_spec`. -/
inductive HttpClient where
  | supplied (tag : String)
  | bitjws (c : BitJWSRequestsClient)
deriving DecidableEq, Repr

/-- The constructed `BitJWSSwaggerClient`, up to the state that determines
its request behaviour: the parsed spec document, the origin url and the
http client wired into `Spec.from_dict` (every operation call goes through
`swagger_spec.http_client`). -/
structure BitJWSSwaggerClient where
  spec_dict : String
  origin_url : Option String
  http_client : HttpClient
deriving DecidableEq, Repr

/-- Construction-time failure: `from_spec` with no http client and no
origin url crashes resolving the host from the absent url
(`urlparse.urlsplit(None)` raises before any client is built). -/
inductive ConstructError where
  | hostResolutionOnAbsentUrl
deriving DecidableEq, Repr

/-- Translation of `BitJWSSwaggerClient.from_spec`: resolve the privkey
argument; when no http client is supplied, resolve the host from the origin
url (failing if the origin url is absent), build a `BitJWSRequestsClient`
and register the key's WIF under that host; finally build the client from
the spec dict, origin url and http client. -/
def from_spec (freshKey : PrivateKey) (spec_dict : String)
    (origin_url : Option String) (http_client : Option HttpClient)
    (privkey : PrivKeyArg) : Except ConstructError BitJWSSwaggerClient :=
  let key := resolvePrivkey freshKey privkey
  match http_client with
  | some c =>
    .ok { spec_dict := spec_dict, origin_url := origin_url, http_client := c }
  | none =>
    match origin_url with
    | none => .error .hostResolutionOnAbsentUrl
    | some u =>
      let host := urlsplitHostname u
      let c := set_bitjws_key { keys := [] } host (privkey_to_wif key)
      .ok { spec_dict := spec_dict, origin_url := origin_url
            http_client := .bitjws c }

/-- Translation of `BitJWSSwaggerClient.from_url`: resolve the privkey
argument; when no http client is supplied, build a `BitJWSRequestsClient`
keyed to the spec url's host; load the spec document through that client
(the external loader is abstracted as the `load_spec` argument); then defer
to `from_spec` with the resolved key object and the (now present) client. -/
def from_url (freshKey : PrivateKey) (load_spec : HttpClient → String)
    (spec_url : String) (http_client : Option HttpClient)
    (privkey : PrivKeyArg) : Except ConstructError BitJWSSwaggerClient :=
  let key := resolvePrivkey freshKey privkey
  let client : HttpClient :=
    match http_client with
    | some c => c
    | none =>
      .bitjws (set_bitjws_key { keys := [] } (urlsplitHostname spec_url)
        (privkey_to_wif key))
  let spec_dict := load_spec client
  from_spec freshKey spec_dict (some spec_url) (some client) (.key key)

/-! Concrete sample data used by the witnesses and counterexamples. -/

/-- Sample spec metadata for witnesses. -/
def sampleSpecInfo : SwaggerSpecInfo := { api_url := "https://api.example.com/v1/" }

/-- Sample required parameter for witnesses. -/
def widgetParam : Param :=
  { name := "id", required := true, defaultValue := none, location := "query" }

/-- Sample operation for witnesses: one required parameter, declared
responses for 200, 400 and 503, and none for 404. -/
def sampleOp : Operation :=
  { operation_id := "getWidget"
    http_method := "get"
    path_name := "/widget"
    swagger_spec := sampleSpecInfo
    params := [widgetParam]
    responses :=
      [ { status := 200, decode := fun b => b }
      , { status := 400, decode := fun b => b }
      , { status := 503, decode := fun b => b } ] }

/-- Sample operation with no parameters, for the request-shape witness. -/
def pingOp : Operation :=
  { operation_id := "ping"
    http_method := "get"
    path_name := "/ping"
    swagger_spec := sampleSpecInfo
    params := []
    responses := [] }

/-- The request `construct_request` builds for `pingOp` with no arguments. -/
def pingRequest : RequestDescription :=
  { method := "GET"
    url := "https://api.example.com/v1/ping"
    headers := []
    params := []
    connect_timeout := none
    timeout := none }

/-- Sample 200 response for the success-path witness. -/
def resp200 : IncomingResponse :=
  { status_code := 200, reason := "OK", text := "widget-body" }

/-- Sample 400 response for the documented-error witness. -/
def resp400 : IncomingResponse :=
  { status_code := 400, reason := "Bad Request", text := "bad input" }

/-- Sample 404 response for the undocumented-status witness. -/
def resp404 : IncomingResponse :=
  { status_code := 404, reason := "Not Found", text := "missing" }

/-- Sample 503 response for the server-error short-circuit. -/
def resp503 : IncomingResponse :=
  { status_code := 503, reason := "Service Unavailable", text := "overloaded" }

/-! Helper lemmas about parameter processing. -/

lemma declaredIn_cons (q : Param) (ps : List Param) (k : String) :
    declaredIn (q :: ps) k = ((q.name == k) || declaredIn ps k) := by
  simp [declaredIn]

lemma popParam_mem_of_ne {p : Param} :
    ∀ (current : List Param) (n : String),
      p ∈ current → p.name ≠ n → p ∈ (popParam current n).2 := by
  intro current n
  induction current with
  | nil => intro hp _; simp at hp
  | cons q ps ih =>
    intro hp hne
    rcases List.mem_cons.mp hp with heq | hmem
    · subst heq
      have hfalse : (p.name == n) = false := by
        simp only [beq_eq_false_iff_ne, ne_eq]; exact hne
      simp [popParam, hfalse]
    · by_cases hq : (q.name == n) = true
      · simp [popParam, hq]; exact hmem
      · have hq2 : (q.name == n) = false := by simpa using hq
        simp only [popParam, hq2, Bool.false_eq_true, if_false]
        exact List.mem_cons_of_mem q (ih hmem hne)

lemma consumeKwargs_ok_mem {p : Param} (opId : String) :
    ∀ (op_kwargs : List (String × Val)) (current : List Param)
      (request : RequestDescription) (remaining : List Param)
      (request2 : RequestDescription),
      p ∈ current → (∀ kv ∈ op_kwargs, kv.1 ≠ p.name) →
      consumeKwargs opId current op_kwargs request = .ok (remaining, request2) →
      p ∈ remaining := by
  intro op_kwargs
  induction op_kwargs with
  | nil =>
    intro current request remaining request2 hp _ hok
    simp only [consumeKwargs, Except.ok.injEq, Prod.mk.injEq] at hok
    rw [← hok.1]
    exact hp
  | cons kv rest ih =>
    intro current request remaining request2 hp habs hok
    obtain ⟨n, w⟩ := kv
    simp only [consumeKwargs] at hok
    cases hpop : popParam current n with
    | mk fst snd =>
      rw [hpop] at hok
      cases fst with
      | none => simp at hok
      | some q =>
        simp only at hok
        have hpn : p.name ≠ n := fun h =>
          habs (n, w) (List.mem_cons_self _ _) h.symm
        have hmem : p ∈ snd := by
          have := popParam_mem_of_ne current n hp hpn
          rw [hpop] at this
          exact this
        exact ih snd _ remaining request2 hmem
          (fun kv2 h2 => habs kv2 (List.mem_cons_of_mem _ h2)) hok

lemma checkRemaining_error_of_required {p : Param} :
    ∀ (remaining : List Param) (request : RequestDescription),
      p ∈ remaining → p.required = true →
      ∃ e, checkRemaining remaining request = .error e := by
  intro remaining
  induction remaining with
  | nil => intro request hp _; simp at hp
  | cons q ps ih =>
    intro request hp hreq
    by_cases hq : q.required = true
    · exact ⟨.requiredMissing q.name, by simp [checkRemaining, hq]⟩
    · have hq2 : q.required = false := by simpa using hq
      have hmem : p ∈ ps := by
        rcases List.mem_cons.mp hp with heq | hmem
        · subst heq; rw [hreq] at hq2; cases hq2
        · exact hmem
      by_cases hd : q.has_default = true
      · obtain ⟨e, he⟩ := ih (marshal_param q none request) hmem hreq
        exact ⟨e, by simp [checkRemaining, hq2, hd, he]⟩
      · have hd2 : q.has_default = false := by simpa using hd
        obtain ⟨e, he⟩ := ih request hmem hreq
        exact ⟨e, by simp [checkRemaining, hq2, hd2, he]⟩

lemma construct_params_error_of_missing_required (op : Operation)
    (request : RequestDescription) (op_kwargs : List (String × Val))
    (p : Param) (hp : p ∈ op.params) (hreq : p.required = true)
    (habsent : ∀ kv ∈ op_kwargs, kv.1 ≠ p.name) :
    ∃ e, construct_params op request op_kwargs = .error e := by
  unfold construct_params
  cases hc : consumeKwargs op.operation_id op.params op_kwargs request with
  | error e => exact ⟨e, rfl⟩
  | ok pr =>
    obtain ⟨remaining, request2⟩ := pr
    have hmem : p ∈ remaining :=
      consumeKwargs_ok_mem op.operation_id op_kwargs op.params request
        remaining request2 hp habsent hc
    obtain ⟨e, he⟩ := checkRemaining_error_of_required remaining request2 hmem hreq
    exact ⟨e, he⟩

lemma popParam_fst_none_iff :
    ∀ (current : List Param) (n : String),
      (popParam current n).1 = none ↔ declaredIn current n = false := by
  intro current n
  induction current with
  | nil => simp [popParam, declaredIn]
  | cons q ps ih =>
    by_cases hq : (q.name == n) = true
    · simp [popParam, hq, declaredIn_cons]
    · have hq2 : (q.name == n) = false := by simpa using hq
      simp [popParam, hq2, declaredIn_cons, ih]

lemma popParam_declaredIn_of_ne {k n : String} (hne : k ≠ n) :
    ∀ (current : List Param),
      declaredIn (popParam current n).2 k = declaredIn current k := by
  intro current
  induction current with
  | nil => simp [popParam]
  | cons q ps ih =>
    by_cases hq : (q.name == n) = true
    · have hqn : q.name = n := by simpa using hq
      have hqk : (q.name == k) = false := by
        simp only [beq_eq_false_iff_ne, ne_eq, hqn]
        exact fun h => hne h.symm
      simp [popParam, hq, declaredIn_cons, hqk]
    · have hq2 : (q.name == n) = false := by simpa using hq
      simp [popParam, hq2, declaredIn_cons, ih]

lemma consumeKwargs_error_first_unknown (opId : String) (ps0 : List Param) :
    ∀ (op_kwargs : List (String × Val)) (current : List Param)
      (request : RequestDescription) (k : String) (v : Val),
      (op_kwargs.map Prod.fst).Nodup →
      (∀ kv ∈ op_kwargs, declaredIn current kv.1 = declaredIn ps0 kv.1) →
      op_kwargs.find? (fun kv => !(declaredIn ps0 kv.1)) = some (k, v) →
      consumeKwargs opId current op_kwargs request =
        .error (.unknownParam opId k) := by
  intro op_kwargs
  induction op_kwargs with
  | nil => intro current request k v _ _ hfind; simp at hfind
  | cons kv rest ih =>
    intro current request k v hnd hinv hfind
    obtain ⟨n, w⟩ := kv
    by_cases hdecl : declaredIn ps0 n = true
    · -- the head keyword is declared: the pop succeeds and we recurse
      have hfind2 : rest.find? (fun kv => !(declaredIn ps0 kv.1)) = some (k, v) := by
        rw [List.find?_cons_of_neg _ (by simp [hdecl])] at hfind
        exact hfind
      have hcurr : declaredIn current n = true := by
        rw [hinv (n, w) (List.mem_cons_self _ _)]
        exact hdecl
      have hnotnone : (popParam current n).1 ≠ none := fun h => by
        rw [popParam_fst_none_iff, hcurr] at h
        exact Bool.noConfusion h
      have hnotin : n ∉ rest.map Prod.fst := by
        have := hnd
        simp only [List.map_cons, List.nodup_cons] at this
        exact this.1
      simp only [consumeKwargs]
      cases hpop : popParam current n with
      | mk fst snd =>
        cases fst with
        | none => rw [hpop] at hnotnone; simp at hnotnone
        | some q =>
          simp only
          apply ih snd _ k v
          · have := hnd
            simp only [List.map_cons, List.nodup_cons] at this
            exact this.2
          · intro kv2 h2
            have hne : kv2.1 ≠ n := fun h => by
              apply hnotin
              rw [← h]
              exact List.mem_map_of_mem Prod.fst h2
            have hsnd : snd = (popParam current n).2 := by rw [hpop]
            rw [hsnd, popParam_declaredIn_of_ne hne current]
            exact hinv kv2 (List.mem_cons_of_mem _ h2)
          · exact hfind2
    · -- the head keyword is the first unknown one: the pop misses
      have hdecl2 : declaredIn ps0 n = false := by simpa using hdecl
      have hkn : k = n := by
        rw [List.find?_cons_of_pos _ (by simp [hdecl2])] at hfind
        exact (Prod.mk.injEq _ _ _ _ ▸ (Option.some.injEq _ _ ▸ hfind)).1.symm
      have hcurr : declaredIn current n = false := by
        rw [hinv (n, w) (List.mem_cons_self _ _)]
        exact hdecl2
      have hnone : (popParam current n).1 = none :=
        (popParam_fst_none_iff current n).mpr hcurr
      simp only [consumeKwargs]
      cases hpop : popParam current n with
      | mk fst snd =>
        rw [hpop] at hnone
        simp only at hnone
        subst hnone
        simp [hkn]

/-! Theorems about request construction. -/

/-- Claim C3: for every operation, kwargs mapping, request options and
transport, when at least one required declared parameter is absent from the
kwargs — whichever one it is — the call fails with a `SwaggerMappingError`
raised by request construction, and no request is ever handed to the
transport (no network I/O occurs). -/
theorem call_missing_required_fails_before_io {F : Type} (op : Operation)
    (op_kwargs : List (String × Val)) (request_options : RequestOptions)
    (http_request : RequestDescription → F)
    (p : Param) (hp : p ∈ op.params) (hreq : p.required = true)
    (habsent : ∀ kv ∈ op_kwargs, kv.1 ≠ p.name) :
    (∃ e, (opCall op op_kwargs request_options http_request).1 =
      .error e) ∧
    (opCall op op_kwargs request_options http_request).2 = [] := by
  obtain ⟨e, he⟩ :=
    construct_params_error_of_missing_required op
      { method := strUpper op.http_method
        url := rstripSlashes op.swagger_spec.api_url ++ op.path_name
        headers := request_options.headers
        params := []
        connect_timeout := request_options.connect_timeout
        timeout := request_options.timeout }
      op_kwargs p hp hreq habsent
  have hcr : construct_request op op_kwargs request_options = .error e := he
  unfold opCall
  rw [hcr]
  exact ⟨⟨e, rfl⟩, rfl⟩

/-- Witness for C3: calling `getWidget` with no arguments while `id` is
required fails before any request reaches the transport. -/
theorem call_missing_required_fails_before_io_witness :
    (∃ e, (opCall sampleOp [] {} (fun _ => ())).1 =
      .error e) ∧
    (opCall sampleOp [] {} (fun _ => ())).2 = [] :=
  call_missing_required_fails_before_io sampleOp [] {} (fun _ => ())
    widgetParam (by decide) (by decide) (by simp)

lemma construct_params_error_of_unknown (op : Operation)
    (request : RequestDescription) (op_kwargs : List (String × Val))
    (hnd : (op_kwargs.map Prod.fst).Nodup)
    (k : String) (v : Val) (hk : (k, v) ∈ op_kwargs)
    (hunk : declaredIn op.params k = false) :
    ∃ k2 v2, (k2, v2) ∈ op_kwargs ∧ declaredIn op.params k2 = false ∧
      construct_params op request op_kwargs =
        .error (.unknownParam op.operation_id k2) := by
  have hsome : ((op_kwargs.find? (fun kv => !(declaredIn op.params kv.1))).isSome) :=
    List.find?_isSome.mpr ⟨(k, v), hk, by simp [hunk]⟩
  obtain ⟨x, hx⟩ := Option.isSome_iff_exists.mp hsome
  obtain ⟨k2, v2⟩ := x
  have hmem : (k2, v2) ∈ op_kwargs := List.mem_of_find?_eq_some hx
  have hpred := List.find?_some hx
  have hunk2 : declaredIn op.params k2 = false := by simpa using hpred
  refine ⟨k2, v2, hmem, hunk2, ?_⟩
  have herr :=
    consumeKwargs_error_first_unknown op.operation_id op.params op_kwargs
      op.params request k2 v2 hnd (fun _ _ => rfl) hx
  unfold construct_params
  rw [herr]

/-- Claim C4: for every operation, request options, and kwargs mapping (with
the distinct keyword names a Python call supplies) containing a key that
names no declared parameter, `construct_request` fails with a
`SwaggerMappingError` naming an unrecognized keyword of that mapping in its
message. -/
theorem construct_request_unknown_param_fails (op : Operation)
    (op_kwargs : List (String × Val)) (request_options : RequestOptions)
    (hnd : (op_kwargs.map Prod.fst).Nodup)
    (k : String) (v : Val) (hk : (k, v) ∈ op_kwargs)
    (hunk : declaredIn op.params k = false) :
    ∃ k2 v2, (k2, v2) ∈ op_kwargs ∧ declaredIn op.params k2 = false ∧
      construct_request op op_kwargs request_options =
        .error (.unknownParam op.operation_id k2) ∧
      (SwaggerMappingError.unknownParam op.operation_id k2).message =
        op.operation_id ++ " does not have parameter " ++ k2 := by
  obtain ⟨k2, v2, hmem, hunk2, herr⟩ :=
    construct_params_error_of_unknown op
      { method := strUpper op.http_method
        url := rstripSlashes op.swagger_spec.api_url ++ op.path_name
        headers := request_options.headers
        params := []
        connect_timeout := request_options.connect_timeout
        timeout := request_options.timeout }
      op_kwargs hnd k v hk hunk
  exact ⟨k2, v2, hmem, hunk2, herr, rfl⟩

/-- Witness for C4: calling `getWidget` with the extra keyword `nme` fails
with the error naming `nme`. -/
theorem construct_request_unknown_param_fails_witness :
    ∃ k2 v2, (k2, v2) ∈ [("id", "5"), ("nme", "x")] ∧
      declaredIn sampleOp.params k2 = false ∧
      construct_request sampleOp [("id", "5"), ("nme", "x")] {} =
        .error (.unknownParam sampleOp.operation_id k2) ∧
      (SwaggerMappingError.unknownParam sampleOp.operation_id k2).message =
        sampleOp.operation_id ++ " does not have parameter " ++ k2 :=
  construct_request_unknown_param_fails sampleOp [("id", "5"), ("nme", "x")]
    {} (by decide) "nme" "x" (by decide) (by decide)

/-- Counterexample for C7 as stated: `getWidget` has the required parameter
`id`; calling it with only the unknown keyword `nme` both omits a required
parameter and supplies an unknown keyword, yet the error raised is the
unknown-parameter one, not the required-parameter-missing one the claim
predicts — the code checks the supplied kwargs against declared parameters
first, and the required-parameter check only runs afterwards. -/
theorem construct_params_order_counterexample :
    widgetParam ∈ sampleOp.params ∧ widgetParam.required = true ∧
    (∀ kv ∈ [(("nme" : String), ("x" : Val))], kv.1 ≠ widgetParam.name) ∧
    declaredIn sampleOp.params "nme" = false ∧
    construct_request sampleOp [("nme", "x")] {} =
      .error (.unknownParam "getWidget" "nme") ∧
    ∀ q, construct_request sampleOp [("nme", "x")] {} ≠
      .error (.requiredMissing q) := by
  refine ⟨by decide, by decide, by decide, by decide, rfl, ?_⟩
  intro q h
  rw [show construct_request sampleOp [("nme", "x")] {} =
    .error (.unknownParam "getWidget" "nme") from rfl] at h
  simp at h

/-- Claim C7 (amended): each supplied kwarg is checked against the declared
parameters first, and the remaining declared parameters are checked for
required/default only afterwards — so when a kwargs mapping (with distinct
keys) both omits a required parameter and contains an unknown keyword, the
`SwaggerMappingError` raised is the unknown-keyword one, never the
required-parameter-missing one. -/
theorem construct_params_unknown_before_required (op : Operation)
    (op_kwargs : List (String × Val)) (request_options : RequestOptions)
    (hnd : (op_kwargs.map Prod.fst).Nodup)
    (p : Param) (_hp : p ∈ op.params) (_hpreq : p.required = true)
    (_habsent : ∀ kv ∈ op_kwargs, kv.1 ≠ p.name)
    (k : String) (v : Val) (hk : (k, v) ∈ op_kwargs)
    (hunk : declaredIn op.params k = false) :
    ∃ k2 v2, (k2, v2) ∈ op_kwargs ∧ declaredIn op.params k2 = false ∧
      construct_request op op_kwargs request_options =
        .error (.unknownParam op.operation_id k2) ∧
      ∀ q, construct_request op op_kwargs request_options ≠
        .error (.requiredMissing q) := by
  obtain ⟨k2, v2, hmem, hunk2, herr⟩ :=
    construct_params_error_of_unknown op
      { method := strUpper op.http_method
        url := rstripSlashes op.swagger_spec.api_url ++ op.path_name
        headers := request_options.headers
        params := []
        connect_timeout := request_options.connect_timeout
        timeout := request_options.timeout }
      op_kwargs hnd k v hk hunk
  have herr2 : construct_request op op_kwargs request_options =
      .error (.unknownParam op.operation_id k2) := herr
  refine ⟨k2, v2, hmem, hunk2, herr2, ?_⟩
  intro q h
  rw [herr2] at h
  simp at h

/-- Witness for C7 (amended): omitting the required `id` while passing the
unknown `nme` yields the unknown-keyword error. -/
theorem construct_params_unknown_before_required_witness :
    ∃ k2 v2, (k2, v2) ∈ [(("nme" : String), ("x" : Val))] ∧
      declaredIn sampleOp.params k2 = false ∧
      construct_request sampleOp [("nme", "x")] {} =
        .error (.unknownParam sampleOp.operation_id k2) ∧
      ∀ q, construct_request sampleOp [("nme", "x")] {} ≠
        .error (.requiredMissing q) :=
  construct_params_unknown_before_required sampleOp [("nme", "x")] {}
    (by decide) widgetParam (by decide) (by decide) (by decide)
    "nme" "x" (by decide) (by decide)

/-! Lemmas and theorem about the shape and determinism of
`construct_request` (claim C8). -/

/-- The method, url, headers and timeout options of a request are unchanged
by parameter processing. -/
def shapeEq (a b : RequestDescription) : Prop :=
  a.method = b.method ∧ a.url = b.url ∧ a.headers = b.headers ∧
  a.connect_timeout = b.connect_timeout ∧ a.timeout = b.timeout

lemma marshal_param_shapeEq (p : Param) (v : Option Val)
    (request : RequestDescription) :
    shapeEq (marshal_param p v request) request :=
  ⟨rfl, rfl, rfl, rfl, rfl⟩

lemma shapeEq_trans {a b c : RequestDescription}
    (h1 : shapeEq a b) (h2 : shapeEq b c) : shapeEq a c :=
  ⟨h1.1.trans h2.1, h1.2.1.trans h2.2.1, h1.2.2.1.trans h2.2.2.1,
    h1.2.2.2.1.trans h2.2.2.2.1, h1.2.2.2.2.trans h2.2.2.2.2⟩

lemma consumeKwargs_shapeEq (opId : String) :
    ∀ (op_kwargs : List (String × Val)) (current : List Param)
      (request : RequestDescription) (remaining : List Param)
      (request2 : RequestDescription),
      consumeKwargs opId current op_kwargs request = .ok (remaining, request2) →
      shapeEq request2 request := by
  intro op_kwargs
  induction op_kwargs with
  | nil =>
    intro current request remaining request2 hok
    simp only [consumeKwargs, Except.ok.injEq, Prod.mk.injEq] at hok
    rw [← hok.2]
    exact ⟨rfl, rfl, rfl, rfl, rfl⟩
  | cons kv rest ih =>
    intro current request remaining request2 hok
    obtain ⟨n, w⟩ := kv
    simp only [consumeKwargs] at hok
    cases hpop : popParam current n with
    | mk fst snd =>
      rw [hpop] at hok
      cases fst with
      | none => simp at hok
      | some q =>
        simp only at hok
        exact shapeEq_trans (ih snd _ remaining request2 hok)
          (marshal_param_shapeEq q (some w) request)

lemma checkRemaining_shapeEq :
    ∀ (remaining : List Param) (request request2 : RequestDescription),
      checkRemaining remaining request = .ok request2 →
      shapeEq request2 request := by
  intro remaining
  induction remaining with
  | nil =>
    intro request request2 hok
    simp only [checkRemaining, Except.ok.injEq] at hok
    rw [← hok]
    exact ⟨rfl, rfl, rfl, rfl, rfl⟩
  | cons q ps ih =>
    intro request request2 hok
    by_cases hq : q.required = true
    · simp [checkRemaining, hq] at hok
    · have hq2 : q.required = false := by simpa using hq
      by_cases hd : q.has_default = true
      · simp only [checkRemaining, hq2, Bool.false_eq_true, if_false, hd,
          if_true] at hok
        exact shapeEq_trans (ih _ request2 hok)
          (marshal_param_shapeEq q none request)
      · have hd2 : q.has_default = false := by simpa using hd
        simp only [checkRemaining, hq2, Bool.false_eq_true, if_false, hd2]
          at hok
        exact ih request request2 hok

/-- Claim C8: `construct_request` is a deterministic pure data
transformation — the same operation, kwargs and request options always
yield the same result — and every request it produces has the uppercased
method, the url obtained by joining the spec's base api url with the
operation's path, the headers from the request options, and the request
options' timeout settings. -/
theorem construct_request_deterministic_shape (op : Operation)
    (op_kwargs : List (String × Val)) (request_options : RequestOptions) :
    construct_request op op_kwargs request_options =
      construct_request op op_kwargs request_options ∧
    ∀ r, construct_request op op_kwargs request_options = .ok r →
      r.method = strUpper op.http_method ∧
      r.url = rstripSlashes op.swagger_spec.api_url ++ op.path_name ∧
      r.headers = request_options.headers ∧
      r.connect_timeout = request_options.connect_timeout ∧
      r.timeout = request_options.timeout := by
  refine ⟨rfl, ?_⟩
  intro r hr
  have hr2 : construct_params op
      { method := strUpper op.http_method
        url := rstripSlashes op.swagger_spec.api_url ++ op.path_name
        headers := request_options.headers
        params := []
        connect_timeout := request_options.connect_timeout
        timeout := request_options.timeout }
      op_kwargs = .ok r := hr
  unfold construct_params at hr2
  cases hc : consumeKwargs op.operation_id op.params op_kwargs
      { method := strUpper op.http_method
        url := rstripSlashes op.swagger_spec.api_url ++ op.path_name
        headers := request_options.headers
        params := []
        connect_timeout := request_options.connect_timeout
        timeout := request_options.timeout } with
  | error e => rw [hc] at hr2; simp at hr2
  | ok pr =>
    obtain ⟨remaining, request2⟩ := pr
    rw [hc] at hr2
    simp only at hr2
    have h1 := consumeKwargs_shapeEq op.operation_id op_kwargs op.params _
      remaining request2 hc
    have h2 := checkRemaining_shapeEq remaining request2 r hr2
    exact shapeEq_trans h2 h1

/-- Witness for C8: constructing the `ping` request with no arguments and
default options yields a request with method GET, the joined url, and empty
options. -/
theorem construct_request_deterministic_shape_witness :
    pingRequest.method = strUpper pingOp.http_method ∧
    pingRequest.url =
      rstripSlashes pingOp.swagger_spec.api_url ++ pingOp.path_name ∧
    pingRequest.headers = ({} : RequestOptions).headers ∧
    pingRequest.connect_timeout = ({} : RequestOptions).connect_timeout ∧
    pingRequest.timeout = ({} : RequestOptions).timeout :=
  (construct_request_deterministic_shape pingOp [] {}).2 pingRequest rfl

/-! Theorems about the response triage. -/

/-- Claim C1: for every completed response whose status code is in the
success range (2xx) and has a schema declared for it in the operation's
response map, `bitjws_response_callback` returns the unmarshalled value
(the declared schema's decoding of the body) as the call's result. -/
theorem callback_success_returns_unmarshalled (resp : IncomingResponse)
    (op : Operation) (rs : ResponseSpec)
    (h1 : 200 ≤ resp.status_code) (h2 : resp.status_code < 300)
    (hs : findResponseSpec op resp.status_code = some rs) :
    bitjws_response_callback resp op = .ok (rs.decode resp.text) := by
  have hnot5 : ¬(500 ≤ resp.status_code ∧ resp.status_code ≤ 599) := by omega
  simp [bitjws_response_callback, raise_on_unexpected, unmarshal_response,
    raise_on_expected, hnot5, hs, h1, h2]

/-- Witness for C1: status 200 with a declared 200 schema yields the
unmarshalled body. -/
theorem callback_success_returns_unmarshalled_witness :
    bitjws_response_callback resp200 sampleOp = .ok "widget-body" :=
  callback_success_returns_unmarshalled resp200 sampleOp
    { status := 200, decode := fun b => b } (by decide) (by decide) rfl

/-- Claim C2: for every completed response in the server-error class (5xx),
`bitjws_response_callback` fails with the minimal `HTTPError` carrying only
status and reason — no message and no payload — for every operation,
including operations that declare a schema for that exact status code. -/
theorem callback_5xx_minimal_error (resp : IncomingResponse) (op : Operation)
    (h1 : 500 ≤ resp.status_code) (h2 : resp.status_code ≤ 599) :
    bitjws_response_callback resp op =
      .error { status := resp.status_code, reason := resp.reason
               message := none, swagger_result := none } := by
  simp [bitjws_response_callback, raise_on_unexpected, h1, h2]

/-- Witness for C2: status 503, against an operation that does declare a
503 schema, still yields the minimal error. -/
theorem callback_5xx_minimal_error_witness :
    (findResponseSpec sampleOp 503).isSome = true ∧
    bitjws_response_callback resp503 sampleOp =
      .error { status := 503, reason := "Service Unavailable"
               message := none, swagger_result := none } :=
  ⟨rfl, callback_5xx_minimal_error resp503 sampleOp (by decide) (by decide)⟩

/-- Counterexample for C5 as stated: status 503 is outside the success
range and has a declared schema (which unmarshals the body to
"overloaded"), yet the callback's error carries no payload at all — the
5xx short-circuit takes precedence, so the payload does not equal the
unmarshalled value. -/
theorem callback_503_payload_not_unmarshalled :
    (findResponseSpec sampleOp 503).isSome = true ∧
    unmarshal_response resp503 sampleOp = .ok "overloaded" ∧
    bitjws_response_callback resp503 sampleOp =
      .error { status := 503, reason := "Service Unavailable"
               message := none, swagger_result := none } ∧
    (none : Option Val) ≠ some "overloaded" :=
  ⟨rfl, rfl, rfl, by decide⟩

/-- Claim C5 (amended): for every completed response whose status code is
outside the success range, is not in the server-error class (5xx), and has
a schema declared for it, `bitjws_response_callback` fails with an
`HTTPError` whose payload equals the value unmarshalled from the body via
that schema. -/
theorem callback_documented_error_payload (resp : IncomingResponse)
    (op : Operation) (rs : ResponseSpec)
    (hnot5 : ¬(500 ≤ resp.status_code ∧ resp.status_code ≤ 599))
    (hout : ¬(200 ≤ resp.status_code ∧ resp.status_code < 300))
    (hs : findResponseSpec op resp.status_code = some rs) :
    bitjws_response_callback resp op =
      .error { status := resp.status_code, reason := resp.reason
               message := none
               swagger_result := some (rs.decode resp.text) } := by
  simp [bitjws_response_callback, raise_on_unexpected, unmarshal_response,
    raise_on_expected, hnot5, hout, hs]

/-- Witness for C5 (amended): status 400 with a declared 400 schema yields
an error whose payload is the unmarshalled body. -/
theorem callback_documented_error_payload_witness :
    bitjws_response_callback resp400 sampleOp =
      .error { status := 400, reason := "Bad Request"
               message := none, swagger_result := some "bad input" } :=
  callback_documented_error_payload resp400 sampleOp
    { status := 400, decode := fun b => b } (by decide) (by decide) rfl

/-- Claim C6: for every completed response whose status code is not in the
server-error class, is outside the success range, and has no schema
declared for it, `bitjws_response_callback` fails with an `HTTPError`
(not the raw unmarshalling failure) whose message is the underlying
no-matching-response diagnostic. -/
theorem callback_undocumented_status_diagnostic (resp : IncomingResponse)
    (op : Operation)
    (hnot5 : ¬(500 ≤ resp.status_code ∧ resp.status_code ≤ 599))
    (_hout : ¬(200 ≤ resp.status_code ∧ resp.status_code < 300))
    (hns : findResponseSpec op resp.status_code = none) :
    bitjws_response_callback resp op =
      .error { status := resp.status_code, reason := resp.reason
               message := some (matchingResponseNotFoundMsg resp.status_code)
               swagger_result := none } := by
  simp [bitjws_response_callback, raise_on_unexpected, unmarshal_response,
    hnot5, hns]

/-- Witness for C6: status 404 with no declared 404 schema yields an error
whose message is the diagnostic, and that diagnostic embeds the text
"no matching response". -/
theorem callback_undocumented_status_diagnostic_witness :
    bitjws_response_callback resp404 sampleOp =
      .error { status := 404, reason := "Not Found"
               message := some (matchingResponseNotFoundMsg 404)
               swagger_result := none } ∧
    matchingResponseNotFoundMsg 404 =
      "no matching response schema found for status code 404" ∧
    ("no matching response".data.isPrefixOf (matchingResponseNotFoundMsg 404).data)
      = true :=
  ⟨callback_undocumented_status_diagnostic resp404 sampleOp (by decide)
      (by decide) rfl,
    rfl, by decide⟩

/-! Theorems about client construction. -/

/-- Claim C9: when the caller supplies a custom http client to `from_spec`
or `from_url`, the privkey argument has no effect on the constructed
client: two runs differing only in privkey produce identical clients, so
the signing identity is never registered with the supplied transport. -/
theorem supplied_client_ignores_privkey (freshKey : PrivateKey)
    (spec_dict : String) (origin_url : Option String)
    (load_spec : HttpClient → String) (spec_url : String) (c : HttpClient)
    (pk1 pk2 : PrivKeyArg) :
    from_spec freshKey spec_dict origin_url (some c) pk1 =
      from_spec freshKey spec_dict origin_url (some c) pk2 ∧
    from_url freshKey load_spec spec_url (some c) pk1 =
      from_url freshKey load_spec spec_url (some c) pk2 :=
  ⟨rfl, rfl⟩

/-- Claim C10: `from_spec` with no http client and no origin url fails
during construction (host resolution on the absent origin url), for every
privkey argument, rather than returning a client. -/
theorem from_spec_no_client_no_origin_fails (freshKey : PrivateKey)
    (spec_dict : String) (privkey : PrivKeyArg) :
    from_spec freshKey spec_dict none none privkey =
      .error .hostResolutionOnAbsentUrl :=
  rfl

end BravadoBitjws
